import Mathlib

/-!
Verification of the camera-navigation controller of the XRInterface
repository (the unified Controls component).  The definitions below are a
shallow embedding of the JavaScript source: the key-state tracker
(handleKeyDown, handleKeyUp, the keysRef flag record and the effect
cleanup), the per-frame integrator (delta-time clamping, direction
derivation, velocity and rotation-velocity smoothing, displacement), and
the constants appearing literally in the code.  Machine floating point is
modelled with exact rationals for the purely rational computations and
with real numbers where the source normalizes vectors or rotates them
about the vertical axis.
-/

namespace XRInterface

/-- The record of logical key flags held in keysRef: forward (W), backward
(S), left (A), right (D), up (Space), down (Shift), turnLeft (Q),
turnRight (E), sprint (Alt). -/
structure Keys where
  forward : Bool
  backward : Bool
  left : Bool
  right : Bool
  up : Bool
  down : Bool
  turnLeft : Bool
  turnRight : Bool
  sprint : Bool
  deriving DecidableEq, Repr

/-- Key flags all false, the initial value of keysRef. -/
def allFalse : Keys :=
  ⟨false, false, false, false, false, false, false, false, false⟩

/-- The physical key codes the handlers switch on; other stands for every
unrecognized code (the default branch of the switch). -/
inductive KeyCode where
  | keyW
  | keyS
  | keyA
  | keyD
  | keyQ
  | keyE
  | space
  | shiftLeft
  | shiftRight
  | altLeft
  | altRight
  | other
  deriving DecidableEq, Repr, Fintype

/-- The key-down handler.  isTextTarget models the event originating from
an INPUT or TEXTAREA element, in which case the handler returns without
touching any flag.  The returned Bool records whether the handler invoked
the event-default suppression (the source calls preventDefault for the
Space case and for the AltLeft and AltRight cases). -/
def handleKeyDown (isTextTarget : Bool) (c : KeyCode) (k : Keys) :
    Keys × Bool :=
  if isTextTarget then (k, false)
  else
    match c with
    | .keyW => ({ k with forward := true }, false)
    | .keyS => ({ k with backward := true }, false)
    | .keyA => ({ k with left := true }, false)
    | .keyD => ({ k with right := true }, false)
    | .keyQ => ({ k with turnLeft := true }, false)
    | .keyE => ({ k with turnRight := true }, false)
    | .space => ({ k with up := true }, true)
    | .shiftLeft => ({ k with down := true }, false)
    | .shiftRight => ({ k with down := true }, false)
    | .altLeft => ({ k with sprint := true }, true)
    | .altRight => ({ k with sprint := true }, true)
    | .other => (k, false)

/-- The key-up handler: symmetric clear, also guarded by the text-field
check, and calling no event-default suppression. -/
def handleKeyUp (isTextTarget : Bool) (c : KeyCode) (k : Keys) : Keys :=
  if isTextTarget then k
  else
    match c with
    | .keyW => { k with forward := false }
    | .keyS => { k with backward := false }
    | .keyA => { k with left := false }
    | .keyD => { k with right := false }
    | .keyQ => { k with turnLeft := false }
    | .keyE => { k with turnRight := false }
    | .space => { k with up := false }
    | .shiftLeft => { k with down := false }
    | .shiftRight => { k with down := false }
    | .altLeft => { k with sprint := false }
    | .altRight => { k with sprint := false }
    | .other => k

/-- Observer: the flag a given key code controls (false for a code the
switch does not recognize). -/
def flagFor (c : KeyCode) (k : Keys) : Bool :=
  match c with
  | .keyW => k.forward
  | .keyS => k.backward
  | .keyA => k.left
  | .keyD => k.right
  | .keyQ => k.turnLeft
  | .keyE => k.turnRight
  | .space => k.up
  | .shiftLeft => k.down
  | .shiftRight => k.down
  | .altLeft => k.sprint
  | .altRight => k.sprint
  | .other => false

/-- The per-mount state the keyboard effect owns: the keysRef flags and
whether the two window-level listeners are attached. -/
structure ListenerState where
  keys : Keys
  keydownAttached : Bool
  keyupAttached : Bool
  deriving DecidableEq, Repr

/-- The effect cleanup run on teardown: it removes both window-level
listeners and does nothing else (translated from the returned cleanup
function of the keyboard effect). -/
def cleanup (s : ListenerState) : ListenerState :=
  { s with keydownAttached := false, keyupAttached := false }

/-- A 3-component vector with the fields of a three.js Vector3. -/
@[ext]
structure Vec3 (α : Type) where
  x : α
  y : α
  z : α
  deriving DecidableEq

namespace Vec3

variable {α : Type} [Field α] {β : Type} [Field β]

/-- Componentwise addition (Vector3.add). -/
def add (v w : Vec3 α) : Vec3 α := ⟨v.x + w.x, v.y + w.y, v.z + w.z⟩

/-- Componentwise subtraction (Vector3.subVectors). -/
def sub (v w : Vec3 α) : Vec3 α := ⟨v.x - w.x, v.y - w.y, v.z - w.z⟩

/-- Scalar multiple (Vector3.multiplyScalar). -/
def scale (v : Vec3 α) (c : α) : Vec3 α := ⟨v.x * c, v.y * c, v.z * c⟩

/-- Squared length (Vector3.lengthSq). -/
def magSq (v : Vec3 α) : α := v.x ^ 2 + v.y ^ 2 + v.z ^ 2

/-- Map a function over the components (used to cast exact rational
components into the reals). -/
def map (f : α → β) (v : Vec3 α) : Vec3 β := ⟨f v.x, f v.y, f v.z⟩

/-- Vector3.lerp: each component moves the fraction t of the remaining
distance toward the corresponding component of w. -/
def lerpVec (v w : Vec3 α) (t : α) : Vec3 α :=
  ⟨v.x + (w.x - v.x) * t, v.y + (w.y - v.y) * t, v.z + (w.z - v.z) * t⟩

end Vec3

/-- THREE.MathUtils.lerp, the scalar linear interpolation used for the
velocity components and for the rotation velocity. -/
def lerpMU {α : Type} [Field α] (x y t : α) : α := (1 - t) * x + t * y

/-- The interpolation factor 0.05 applied to the three velocity
components each frame. -/
def velocityLerpFactor : ℚ := 1 / 20

/-- The interpolation factor 0.05 applied to the rotation velocity each
frame. -/
def rotationLerpFactor : ℚ := 1 / 20

/-- The fixed angular speed constant 1.5 multiplying the yaw-key target. -/
def angularSpeedConstant : ℚ := 3 / 2

/-- The interpolation factor 0.1 used when moving the orbit target toward
the rotated target point. -/
def targetLerpFactor : ℚ := 1 / 10

/-- The raw (pre-normalization) direction derived from the key flags.  The
source assigns the components in sequence, so backward overrides forward,
right overrides left, and down overrides up when both flags of a pair are
held. -/
def rawDirection (k : Keys) : Vec3 ℚ :=
  ⟨if k.right then 1 else if k.left then -1 else 0,
   if k.down then -1 else if k.up then 1 else 0,
   if k.backward then 1 else if k.forward then -1 else 0⟩

/-- Number of movement flags held (the six translation keys; the yaw and
sprint flags do not contribute to the direction). -/
def movementKeyCount (k : Keys) : ℕ :=
  (if k.forward then 1 else 0) + (if k.backward then 1 else 0) +
    (if k.left then 1 else 0) + (if k.right then 1 else 0) +
    (if k.up then 1 else 0) + (if k.down then 1 else 0)

/-- The speed used as the smoothing target: the base configured movement
speed, doubled while the sprint flag is held. -/
def currentSpeed (sprint : Bool) (movementSpeed : ℚ) : ℚ :=
  if sprint then movementSpeed * 2 else movementSpeed

/-- One smoothing step of a single velocity component toward the target
component tgt, with the factor 0.05 from the source. -/
def velStep (tgt v : ℚ) : ℚ := lerpMU v tgt velocityLerpFactor

/-- One smoothing step of the whole velocity vector toward the target
vector (the three componentwise lerp calls of the source). -/
def velVecStep (tgt v : Vec3 ℚ) : Vec3 ℚ :=
  ⟨velStep tgt.x v.x, velStep tgt.y v.y, velStep tgt.z v.z⟩

/-- The scalar velocity component after n ticks, starting from rest, with
a constant target s (the value a held single key produces on its axis). -/
def velIter (s : ℚ) : ℕ → ℚ
  | 0 => 0
  | n + 1 => velStep s (velIter s n)

/-- The velocity vector after n ticks from an idle start while the key
flags k are held, with speed the current (possibly sprint-doubled) speed.
The target is the raw direction scaled by the speed; for a single held
movement key the raw direction has squared length one, so the
normalization step of the source leaves it unchanged. -/
def velVec (k : Keys) (speed : ℚ) : ℕ → Vec3 ℚ
  | 0 => ⟨0, 0, 0⟩
  | n + 1 => velVecStep ((rawDirection k).scale speed) (velVec k speed n)

/-- The velocity vector after n ticks once every movement key is released:
each component is smoothed toward zero. -/
def decayFrom (v : Vec3 ℚ) : ℕ → Vec3 ℚ
  | 0 => v
  | n + 1 => velVecStep ⟨0, 0, 0⟩ (decayFrom v n)

/-- One smoothing step of the rotation velocity toward the yaw target
times the angular speed constant, with the factor 0.05 from the source. -/
def rotStep (tgt r : ℚ) : ℚ := lerpMU r (tgt * angularSpeedConstant) rotationLerpFactor

/-- The rotation velocity after n ticks from rest while the yaw-left key
is held (target ratio one). -/
def rotIter : ℕ → ℚ
  | 0 => 0
  | n + 1 => rotStep 1 (rotIter n)

/-- Length of a real vector (Vector3.length). -/
noncomputable def lengthR (v : Vec3 ℝ) : ℝ := Real.sqrt v.magSq

/-- three.js Vector3.normalize: divide the vector by its length, or by
one when the length is zero. -/
noncomputable def normalizeR (v : Vec3 ℝ) : Vec3 ℝ :=
  v.scale (1 / (if lengthR v = 0 then 1 else lengthR v))

/-- A quaternion with the fields of a three.js Quaternion. -/
structure Quat where
  x : ℝ
  y : ℝ
  z : ℝ
  w : ℝ

/-- three.js Vector3.applyQuaternion. -/
noncomputable def applyQuaternion (q : Quat) (v : Vec3 ℝ) : Vec3 ℝ :=
  let tx := 2 * (q.y * v.z - q.z * v.y)
  let ty := 2 * (q.z * v.x - q.x * v.z)
  let tz := 2 * (q.x * v.y - q.y * v.x)
  ⟨v.x + q.w * tx + q.y * tz - q.z * ty,
   v.y + q.w * ty + q.z * tx - q.x * tz,
   v.z + q.w * tz + q.x * ty - q.y * tx⟩

/-- three.js Quaternion.setFromAxisAngle. -/
noncomputable def setFromAxisAngle (axis : Vec3 ℝ) (angle : ℝ) : Quat :=
  ⟨axis.x * Real.sin (angle / 2), axis.y * Real.sin (angle / 2),
   axis.z * Real.sin (angle / 2), Real.cos (angle / 2)⟩

/-- three.js Vector3.applyAxisAngle, built from setFromAxisAngle and
applyQuaternion as in the library source. -/
noncomputable def applyAxisAngle (v axis : Vec3 ℝ) (angle : ℝ) : Vec3 ℝ :=
  applyQuaternion (setFromAxisAngle axis angle) v

/-- Cast a rational vector into the reals componentwise. -/
def castVec (v : Vec3 ℚ) : Vec3 ℝ := v.map (fun q : ℚ => (q : ℝ))

/-- The target linear direction the integrator computes each tick: the
raw direction from the key flags, normalized when its squared length is
positive (the source guards the normalize call by lengthSq greater than
zero). -/
noncomputable def tickDirection (k : Keys) : Vec3 ℝ :=
  let dirRaw := castVec (rawDirection k)
  if 0 < dirRaw.magSq then normalizeR dirRaw else dirRaw

/-- The state a frame tick reads and writes: the configuration flags and
speed, the rig attachment and auto-rotate flags, the key flags, the
smoothed velocity vector and rotation velocity, the camera position and
orientation, the orbit target, and the time stamp of the previous tick
(milliseconds). -/
structure ControlState where
  enableMovement : Bool
  rigAttached : Bool
  autoRotate : Bool
  movementSpeed : ℝ
  keys : Keys
  velocity : Vec3 ℝ
  rotationVelocity : ℝ
  cameraPos : Vec3 ℝ
  cameraQuat : Quat
  target : Vec3 ℝ
  lastFrameTime : ℝ

/-- The body of the frame callback after the guard and the delta-time
computation, as a function of the clamped delta time: rotation-velocity
smoothing, orbit-target rotation, velocity smoothing, and displacement of
camera position and orbit target. -/
noncomputable def tickCore (s : ControlState) (deltaTime : ℝ) : ControlState :=
  let keys := s.keys
  let speedNow : ℝ := if keys.sprint then s.movementSpeed * 2 else s.movementSpeed
  let direction := tickDirection keys
  let targetRotVel : ℝ := if keys.turnRight then -1 else if keys.turnLeft then 1 else 0
  let rotVel : ℝ :=
    lerpMU s.rotationVelocity (targetRotVel * (angularSpeedConstant : ℝ))
      (rotationLerpFactor : ℝ)
  let target1 : Vec3 ℝ :=
    if 1 / 100 < |rotVel| then
      let rotationAmount := rotVel * deltaTime
      let targetRelative := s.target.sub s.cameraPos
      let rotated := applyAxisAngle targetRelative ⟨0, 1, 0⟩ rotationAmount
      let targetVec := s.cameraPos.add rotated
      Vec3.lerpVec s.target targetVec (targetLerpFactor : ℝ)
    else s.target
  let vel : Vec3 ℝ :=
    ⟨lerpMU s.velocity.x (direction.x * speedNow) (velocityLerpFactor : ℝ),
     lerpMU s.velocity.y (direction.y * speedNow) (velocityLerpFactor : ℝ),
     lerpMU s.velocity.z (direction.z * speedNow) (velocityLerpFactor : ℝ)⟩
  if 1 / 1000 < |vel.x| ∨ 1 / 1000 < |vel.y| ∨ 1 / 1000 < |vel.z| then
    let moveH : Vec3 ℝ :=
      if 1 / 1000 < |vel.x| ∨ 1 / 1000 < |vel.z| then
        let fwd0 := applyQuaternion s.cameraQuat ⟨0, 0, -1⟩
        let fwd := normalizeR ⟨fwd0.x, 0, fwd0.z⟩
        let rgt0 := applyQuaternion s.cameraQuat ⟨1, 0, 0⟩
        let rgt := normalizeR ⟨rgt0.x, 0, rgt0.z⟩
        let m1 : Vec3 ℝ :=
          if 1 / 1000 < |vel.z| then
            (Vec3.mk (0 : ℝ) 0 0).add (fwd.scale (-vel.z * deltaTime))
          else ⟨0, 0, 0⟩
        if 1 / 1000 < |vel.x| then m1.add (rgt.scale (vel.x * deltaTime)) else m1
      else ⟨0, 0, 0⟩
    let moveVector : Vec3 ℝ :=
      if 1 / 1000 < |vel.y| then ⟨moveH.x, moveH.y + vel.y * deltaTime, moveH.z⟩
      else moveH
    { s with velocity := vel, rotationVelocity := rotVel,
             cameraPos := s.cameraPos.add moveVector,
             target := target1.add moveVector }
  else
    { s with velocity := vel, rotationVelocity := rotVel, target := target1 }

/-- One frame tick at wall-clock time now (milliseconds): if keyboard
movement is disabled or the orbit rig handle is not attached the callback
returns immediately and the whole state, the stored time stamp included,
is untouched; otherwise the delta time is the elapsed time in seconds
clamped to 0.05 and the body runs on it. -/
noncomputable def tick (s : ControlState) (now : ℝ) : ControlState :=
  if s.enableMovement = false ∨ s.rigAttached = false then s
  else
    { tickCore s (min (1 / 20) ((now - s.lastFrameTime) / 1000)) with
      lastFrameTime := now }

/-- Key flags with only the forward flag held. -/
def keysForwardOnly : Keys := { allFalse with forward := true }

/-- A concrete state whose keyboard movement is disabled by
configuration. -/
noncomputable def disabledState : ControlState :=
  { enableMovement := false
    rigAttached := true
    autoRotate := false
    movementSpeed := 3
    keys := keysForwardOnly
    velocity := ⟨1, 1, 1⟩
    rotationVelocity := 1
    cameraPos := ⟨0, 0, 5⟩
    cameraQuat := ⟨0, 0, 0, 1⟩
    target := ⟨0, 3 / 2, -1⟩
    lastFrameTime := 0 }

/-! Closed forms of the smoothing iterates and basic bounds. -/

lemma velIter_closed (s : ℚ) (n : ℕ) :
    velIter s n = s * (1 - (19 / 20 : ℚ) ^ n) := by
  induction n with
  | zero => simp [velIter]
  | succ n ih =>
      simp only [velIter, velStep, lerpMU, velocityLerpFactor, ih, pow_succ]
      ring

lemma velVec_closed (k : Keys) (s : ℚ) (n : ℕ) :
    velVec k s n = (rawDirection k).scale (velIter s n) := by
  induction n with
  | zero => ext <;> simp [velVec, velIter, Vec3.scale]
  | succ n ih =>
      ext <;>
        simp only [velVec, velVecStep, velStep, lerpMU, velocityLerpFactor,
          Vec3.scale, velIter, ih] <;>
        ring

lemma decayFrom_closed (v : Vec3 ℚ) (n : ℕ) :
    decayFrom v n = v.scale ((19 / 20 : ℚ) ^ n) := by
  induction n with
  | zero => ext <;> simp [decayFrom, Vec3.scale]
  | succ n ih =>
      ext <;>
        simp only [decayFrom, velVecStep, velStep, lerpMU, velocityLerpFactor,
          Vec3.scale, ih, pow_succ] <;>
        ring

lemma rotIter_closed (n : ℕ) :
    rotIter n = angularSpeedConstant * (1 - (19 / 20 : ℚ) ^ n) := by
  induction n with
  | zero => simp [rotIter, angularSpeedConstant]
  | succ n ih =>
      simp only [rotIter, rotStep, lerpMU, rotationLerpFactor,
        angularSpeedConstant, ih, pow_succ]
      ring

lemma magSq_scale {α : Type} [Field α] (v : Vec3 α) (c : α) :
    (v.scale c).magSq = v.magSq * c ^ 2 := by
  simp only [Vec3.scale, Vec3.magSq]
  ring

lemma magSq_rawDirection_single (k : Keys) (hk : movementKeyCount k = 1) :
    (rawDirection k).magSq = 1 := by
  obtain ⟨f, b, l, r, u, d, tl, tr, sp⟩ := k
  cases f <;> cases b <;> cases l <;> cases r <;> cases u <;> cases d <;>
    simp_all [movementKeyCount, rawDirection, Vec3.magSq]

lemma decayPow_pos (n : ℕ) : 0 < (19 / 20 : ℚ) ^ n :=
  pow_pos (by norm_num) n

lemma decayPow_le_one (n : ℕ) : (19 / 20 : ℚ) ^ n ≤ 1 :=
  pow_le_one₀ (by norm_num) (by norm_num)

lemma velIter_nonneg (s : ℚ) (hs : 0 ≤ s) (n : ℕ) : 0 ≤ velIter s n := by
  rw [velIter_closed]
  nlinarith [decayPow_le_one n]

lemma velIter_lt_speed (s : ℚ) (hs : 0 < s) (n : ℕ) : velIter s n < s := by
  rw [velIter_closed]
  nlinarith [decayPow_pos n]

lemma velIter_strict_step (s : ℚ) (hs : 0 < s) (n : ℕ) :
    velIter s n < velIter s (n + 1) := by
  rw [velIter_closed, velIter_closed, pow_succ]
  nlinarith [decayPow_pos n]

lemma velVecStep_fixed (tgt v : Vec3 ℚ) : velVecStep tgt v = v ↔ v = tgt := by
  constructor
  · intro h
    have hx := congrArg Vec3.x h
    have hy := congrArg Vec3.y h
    have hz := congrArg Vec3.z h
    simp only [velVecStep, velStep, lerpMU, velocityLerpFactor] at hx hy hz
    ext
    · linarith
    · linarith
    · linarith
  · rintro rfl
    ext <;> simp only [velVecStep, velStep, lerpMU, velocityLerpFactor] <;> ring

/-- C1: for every positive speed and every single movement key held
continuously from an idle start, the raw direction is already a unit
vector (so the normalization of the source leaves it unchanged), and the
squared magnitude of the velocity vector increases strictly on every
tick, equals the exact geometric form, stays strictly below the square of
the speed, and approaches it within any positive margin after enough
ticks.  The velocity lerp of the source does not read the elapsed time,
so these facts hold for every fixed elapsed-time-per-tick. -/
theorem C1_single_key_velocity (s : ℚ) (hs : 0 < s) (k : Keys)
    (hk : movementKeyCount k = 1) (n : ℕ) :
    (rawDirection k).magSq = 1 ∧
    (velVec k s n).magSq < (velVec k s (n + 1)).magSq ∧
    (velVec k s n).magSq = (s * (1 - (19 / 20 : ℚ) ^ n)) ^ 2 ∧
    (velVec k s n).magSq < s ^ 2 ∧
    ∀ ε : ℚ, 0 < ε → ∃ N : ℕ, ∀ m : ℕ, N ≤ m →
      s ^ 2 - (velVec k s m).magSq < ε := by
  have hmag : ∀ m : ℕ, (velVec k s m).magSq = velIter s m ^ 2 := by
    intro m
    rw [velVec_closed, magSq_scale, magSq_rawDirection_single k hk, one_mul]
  refine ⟨magSq_rawDirection_single k hk, ?_, ?_, ?_, ?_⟩
  · rw [hmag n, hmag (n + 1)]
    have h0 := velIter_nonneg s hs.le n
    have h1 := velIter_strict_step s hs n
    nlinarith
  · rw [hmag n, velIter_closed]
  · rw [hmag n]
    have h0 := velIter_nonneg s hs.le n
    have h1 := velIter_lt_speed s hs n
    nlinarith
  · intro ε hε
    have hpos : 0 < ε / (2 * s ^ 2) := by positivity
    obtain ⟨N, hN⟩ :=
      exists_pow_lt_of_lt_one hpos (by norm_num : (19 / 20 : ℚ) < 1)
    refine ⟨N, fun m hm => ?_⟩
    have hqm : (19 / 20 : ℚ) ^ m ≤ (19 / 20 : ℚ) ^ N :=
      pow_le_pow_of_le_one (by norm_num) (by norm_num) hm
    have hN2 : (19 / 20 : ℚ) ^ N * (2 * s ^ 2) < ε :=
      (lt_div_iff₀ (by positivity)).mp hN
    have h2 : 2 * s ^ 2 * (19 / 20 : ℚ) ^ m ≤ 2 * s ^ 2 * (19 / 20 : ℚ) ^ N :=
      mul_le_mul_of_nonneg_left hqm (by positivity)
    rw [hmag m, velIter_closed]
    nlinarith [sq_nonneg (s * (19 / 20 : ℚ) ^ m)]

/-- Witness for C1 at speed three (the default), the forward key alone,
and tick index two. -/
theorem C1_single_key_velocity_witness :
    (velVec keysForwardOnly 3 2).magSq < (velVec keysForwardOnly 3 3).magSq ∧
    (velVec keysForwardOnly 3 2).magSq < 3 ^ 2 :=
  ⟨(C1_single_key_velocity 3 (by norm_num) keysForwardOnly (by decide) 2).2.1,
   (C1_single_key_velocity 3 (by norm_num) keysForwardOnly (by decide) 2).2.2.2.1⟩

/-- C3: the speed used as the smoothing target is exactly double the base
speed when sprint is held and exactly the base speed otherwise; the only
fixed point of the per-tick velocity smoothing step is the target vector
itself, the sprint fixed point is the non-sprint fixed point scaled by
two, and its squared magnitude is four times as large (that is, the
converged magnitude is exactly doubled). -/
theorem C3_sprint_doubles_converged_velocity (base : ℚ) (d v : Vec3 ℚ) :
    currentSpeed true base = 2 * base ∧
    currentSpeed false base = base ∧
    (velVecStep (d.scale (currentSpeed true base)) v = v ↔
      v = d.scale (currentSpeed true base)) ∧
    (velVecStep (d.scale (currentSpeed false base)) v = v ↔
      v = d.scale (currentSpeed false base)) ∧
    d.scale (currentSpeed true base) =
      (d.scale (currentSpeed false base)).scale 2 ∧
    (d.scale (currentSpeed true base)).magSq =
      4 * (d.scale (currentSpeed false base)).magSq := by
  refine ⟨by simp [currentSpeed, mul_comm], by simp [currentSpeed],
    velVecStep_fixed _ _, velVecStep_fixed _ _, ?_, ?_⟩
  · ext <;> simp [currentSpeed, Vec3.scale] <;> ring
  · simp only [currentSpeed, Vec3.scale, Vec3.magSq, Bool.false_eq_true,
      if_false, if_true]
    ring

/-- C4 counterexample: the interpolation factor smoothing the rotation
velocity is not strictly smaller than the factor smoothing the linear
velocity; both are the literal 0.05 of the source. -/
theorem C4_rotation_factor_not_smaller :
    ¬ rotationLerpFactor < velocityLerpFactor := by
  norm_num [rotationLerpFactor, velocityLerpFactor]

/-- C4 amended: the two factors are equal, so from rest both smoothing
processes cover exactly the same fraction of the distance to their
targets after any number of ticks: the rotation velocity after n ticks is
the angular speed constant times the fraction that the unit-speed linear
velocity has covered. -/
theorem C4_equal_factors_equal_fraction (n : ℕ) :
    rotationLerpFactor = velocityLerpFactor ∧
    rotIter n = angularSpeedConstant * velIter 1 n := by
  refine ⟨rfl, ?_⟩
  rw [rotIter_closed, velIter_closed]
  ring

/-- C5 counterexample: from the starting velocity one on the x axis, no
number of ticks of the release-time smoothing step makes the velocity
vector exactly zero: each tick multiplies the components by nineteen
twentieths, which never reaches zero in exact arithmetic. -/
theorem C5_never_exactly_zero :
    ¬ ∃ N : ℕ, decayFrom ⟨1, 0, 0⟩ N = (⟨0, 0, 0⟩ : Vec3 ℚ) := by
  rintro ⟨N, hN⟩
  rw [decayFrom_closed] at hN
  have hx : (1 : ℚ) * (19 / 20 : ℚ) ^ N = 0 := congrArg Vec3.x hN
  rw [one_mul] at hx
  exact pow_ne_zero N (by norm_num : (19 / 20 : ℚ) ≠ 0) hx

/-- C5 amended: after all movement keys are released, every component of
the velocity vector falls below the deadband 0.001 of the source within a
bounded number of ticks and stays below it, so from then on the
integrator applies no displacement; the vector decays geometrically but
never equals exactly zero in exact arithmetic. -/
theorem C5_velocity_below_deadband (v : Vec3 ℚ) :
    ∃ N : ℕ, ∀ n : ℕ, N ≤ n →
      |(decayFrom v n).x| < 1 / 1000 ∧ |(decayFrom v n).y| < 1 / 1000 ∧
        |(decayFrom v n).z| < 1 / 1000 := by
  have hM0 : 0 < |v.x| + |v.y| + |v.z| + 1 := by positivity
  have hε : 0 < (1 / 1000 : ℚ) / (|v.x| + |v.y| + |v.z| + 1) := by positivity
  obtain ⟨N, hN⟩ :=
    exists_pow_lt_of_lt_one hε (by norm_num : (19 / 20 : ℚ) < 1)
  refine ⟨N, fun n hn => ?_⟩
  have hqn : (19 / 20 : ℚ) ^ n ≤ (19 / 20 : ℚ) ^ N :=
    pow_le_pow_of_le_one (by norm_num) (by norm_num) hn
  have hq0 := decayPow_pos n
  have hkey : (|v.x| + |v.y| + |v.z| + 1) * (19 / 20 : ℚ) ^ n < 1 / 1000 := by
    have h1 : (19 / 20 : ℚ) ^ N * (|v.x| + |v.y| + |v.z| + 1) < 1 / 1000 :=
      (lt_div_iff₀ hM0).mp hN
    nlinarith
  have hx0 := abs_nonneg v.x
  have hy0 := abs_nonneg v.y
  have hz0 := abs_nonneg v.z
  rw [decayFrom_closed]
  refine ⟨?_, ?_, ?_⟩ <;>
    · simp only [Vec3.scale]
      rw [abs_mul, abs_of_pos hq0]
      nlinarith

/-! Facts about the real-number layer: casts, normalization, the tick. -/

lemma castVec_magSq (v : Vec3 ℚ) : (castVec v).magSq = (v.magSq : ℝ) := by
  simp only [castVec, Vec3.map, Vec3.magSq]
  push_cast
  ring

lemma magSq_pos_of_ne_zero (v : Vec3 ℚ) (h : v ≠ ⟨0, 0, 0⟩) :
    0 < v.magSq := by
  by_contra h0
  push_neg at h0
  simp only [Vec3.magSq] at h0
  have hx2 : v.x ^ 2 = 0 := by nlinarith [sq_nonneg v.x, sq_nonneg v.y, sq_nonneg v.z]
  have hy2 : v.y ^ 2 = 0 := by nlinarith [sq_nonneg v.x, sq_nonneg v.y, sq_nonneg v.z]
  have hz2 : v.z ^ 2 = 0 := by nlinarith [sq_nonneg v.x, sq_nonneg v.y, sq_nonneg v.z]
  have hx := pow_eq_zero_iff (two_ne_zero) |>.mp hx2
  have hy := pow_eq_zero_iff (two_ne_zero) |>.mp hy2
  have hz := pow_eq_zero_iff (two_ne_zero) |>.mp hz2
  apply h
  ext <;> simp [hx, hy, hz]

lemma normalizeR_magSq (w : Vec3 ℝ) (h : 0 < w.magSq) :
    (normalizeR w).magSq = 1 := by
  have hlpos : 0 < lengthR w := Real.sqrt_pos.mpr h
  have hne : lengthR w ≠ 0 := ne_of_gt hlpos
  have hsq : lengthR w ^ 2 = w.magSq := Real.sq_sqrt h.le
  simp only [normalizeR, if_neg hne, magSq_scale, div_pow, one_pow, hsq]
  field_simp

/-- C2: the elapsed time a tick uses is the wall-clock gap clamped to
0.05 seconds, so a tick after a 2000 millisecond stall produces exactly
the camera position, orbit target, velocity vector and rotation velocity
that a tick after a 50 millisecond gap produces from the same state. -/
theorem C2_two_second_gap_equals_fifty_ms (s : ControlState) :
    (tick s (s.lastFrameTime + 2000)).cameraPos =
      (tick s (s.lastFrameTime + 50)).cameraPos ∧
    (tick s (s.lastFrameTime + 2000)).target =
      (tick s (s.lastFrameTime + 50)).target ∧
    (tick s (s.lastFrameTime + 2000)).velocity =
      (tick s (s.lastFrameTime + 50)).velocity ∧
    (tick s (s.lastFrameTime + 2000)).rotationVelocity =
      (tick s (s.lastFrameTime + 50)).rotationVelocity := by
  have h1 : (s.lastFrameTime + 2000 - s.lastFrameTime) / 1000 = (2 : ℝ) := by
    ring
  have h2 : (s.lastFrameTime + 50 - s.lastFrameTime) / 1000 = (1 / 20 : ℝ) := by
    ring
  have hdt : min (1 / 20 : ℝ) ((s.lastFrameTime + 2000 - s.lastFrameTime) / 1000) =
      min (1 / 20 : ℝ) ((s.lastFrameTime + 50 - s.lastFrameTime) / 1000) := by
    rw [h1, h2, min_self, min_eq_left (by norm_num : (1 / 20 : ℝ) ≤ 2)]
  by_cases h : s.enableMovement = false ∨ s.rigAttached = false
  · simp [tick, h]
  · simp only [tick, if_neg h]
    rw [hdt]
    exact ⟨rfl, rfl, rfl, rfl⟩

/-- C6: when keyboard movement is disabled by configuration or the orbit
rig handle is not attached, the frame callback returns before touching
anything: the whole state, camera position, orbit target, velocity and
rotation velocity included, is returned unchanged, and the function is
total so no error is raised. -/
theorem C6_disabled_or_detached_is_noop (s : ControlState) (now : ℝ)
    (h : s.enableMovement = false ∨ s.rigAttached = false) :
    tick s now = s := by
  simp only [tick, if_pos h]

/-- Witness for C6 at a concrete state whose movement is disabled. -/
theorem C6_disabled_or_detached_is_noop_witness :
    tick disabledState 100 = disabledState :=
  C6_disabled_or_detached_is_noop disabledState 100 (Or.inl rfl)

/-- C7: the target linear direction computed from the key flags each tick
is either the zero vector or has squared length exactly one, so holding
several axes at once yields the same direction magnitude as holding one
axis (diagonal movement is not faster).  The axis assignment itself is
the rawDirection definition above, translated from the source. -/
theorem C7_direction_zero_or_unit (k : Keys) :
    tickDirection k = ⟨0, 0, 0⟩ ∨ (tickDirection k).magSq = 1 := by
  by_cases h : rawDirection k = ⟨0, 0, 0⟩
  · left
    simp [tickDirection, h, castVec, Vec3.map, Vec3.magSq]
  · right
    have hpos : 0 < (rawDirection k).magSq := magSq_pos_of_ne_zero _ h
    have hposR : 0 < (castVec (rawDirection k)).magSq := by
      rw [castVec_magSq]
      exact_mod_cast hpos
    simp only [tickDirection, if_pos hposR]
    exact normalizeR_magSq _ hposR

/-- C8 counterexample: a key-down for the sprint key AltLeft, outside a
text field, also invokes the event-default suppression, and AltLeft is
not the ascend key, refuting that Space is the only recognized key for
which preventDefault is invoked. -/
theorem C8_alt_also_prevents_default :
    (handleKeyDown false KeyCode.altLeft allFalse).2 = true ∧
    KeyCode.altLeft ≠ KeyCode.space :=
  ⟨rfl, by decide⟩

/-- C8 amended: among key-down events outside a text field, the
event-default suppression is invoked exactly for the ascend key Space and
the sprint keys AltLeft and AltRight; inside a text field it is never
invoked. -/
theorem C8_preventdefault_exactly_space_and_alt (c : KeyCode) (k : Keys) :
    ((handleKeyDown false c k).2 = true ↔
      c = KeyCode.space ∨ c = KeyCode.altLeft ∨ c = KeyCode.altRight) ∧
    (handleKeyDown true c k).2 = false := by
  cases c <;> simp [handleKeyDown]

/-- C9 counterexample: running the teardown cleanup while the forward
flag is held leaves the flag true, refuting that the InputState mapping
is reset to all-false on detach. -/
theorem C9_flags_survive_cleanup :
    (cleanup ⟨{ allFalse with forward := true }, true, true⟩).keys.forward =
      true := rfl

/-- C9 amended: on teardown the cleanup removes both window-level
listeners and leaves the key flags exactly as they were; the flags are
not reset (they are discarded with the component instance). -/
theorem C9_cleanup_removes_listeners_only (s : ListenerState) :
    (cleanup s).keydownAttached = false ∧ (cleanup s).keyupAttached = false ∧
      (cleanup s).keys = s.keys :=
  ⟨rfl, rfl, rfl⟩

/-- C10: a key-up whose originating element is a text field leaves every
flag unchanged, so a flag set true by an earlier key-down stays true; a
key-up for the same key arriving outside a text field clears the flag the
key controls. -/
theorem C10_textfield_keyup_ignored (c : KeyCode) (k : Keys) :
    handleKeyUp true c k = k ∧ flagFor c (handleKeyUp false c k) = false := by
  cases c <;> simp [handleKeyUp, flagFor]

end XRInterface
